import Mathlib

/-!
Shallow embedding of the `BigDec` / `BigNum` arithmetic kernel of
mathmate.js (`src/index.js`, first variant: the executed one built on a
single signed JavaScript BigInt magnitude `v` plus a scale `dp`).

Representation notes, matching the source:
* a `BigDec` object holds `v : BigInt` (signed; the sign of the number is
  the sign of `v`) and `dp : number` (the scale; it can become negative
  through `inverse`), so the Lean structure has `v : Int` and `dp : Int`;
* every `new BigDec({dp, v})` construction runs the constructor tail
  (`src/index.js` lines 30-34): when `dp > FLOAT_PRECISION` it slices the
  decimal string of `v`, which can produce `""` (value 0) or `"-"`
  (a `SyntaxError` from `BigInt("-")`); this is `truncDp` below, so every
  operation that constructs a `BigDec` returns `Except JsError BigDec`;
* parsing a string computes `BigInt(sign * digitString)` (line 26): the
  digit string is coerced to an IEEE-754 double before `BigInt`, which
  rounds magnitudes of 2^53 and above; `jsNumber` models that rounding
  (round to nearest, ties to even, 53 significant bits, overflow to
  Infinity, which makes `BigInt` throw a `RangeError`).
-/

deriving instance DecidableEq for Except

set_option exponentiation.threshold 1300
set_option maxRecDepth 8000

namespace Mathmate

/-- Errors a `BigDec` operation can surface.  The three named kinds come
from the explicit `throw new Error(...)` statements of the source; in
addition `BigInt("-")` raises a `SyntaxError` and `BigInt(Infinity)` a
`RangeError` in the constructor tail. -/
inductive JsError where
  | invalidFormat
  | divisionByZero
  | negativeSquareRoot
  | syntaxError
  | rangeError
deriving DecidableEq, Repr

/-- The `BigDec` record: `v` is the signed magnitude (a JS BigInt),
`dp` the scale (a JS number, possibly negative after `inverse`). -/
structure BigDec where
  v : Int
  dp : Int
deriving DecidableEq, Repr

/-- `BigDec.FLOAT_PRECISION = 20` (src/index.js line 37). -/
def FLOAT_PRECISION : Int := 20

/-- Digit count of the decimal representation of a natural number,
written with explicit fuel so that the kernel can evaluate it; fuel `m`
is enough because a number has at most `m` digits for `m ≥ 1`, and the
`0` case answers `1` (the string `"0"` has length 1). -/
def decDigitsAux : Nat → Nat → Nat
  | 0, _ => 1
  | f + 1, m => if m < 10 then 1 else decDigitsAux f (m / 10) + 1

/-- Number of characters of the decimal digit string of `m`. -/
def decDigits (m : Nat) : Nat := decDigitsAux m m

/-- `digitCount` (src/index.js lines 60-62): `this.v.toString().length`.
For negative `v` the JS string includes the leading `"-"`, hence the
extra 1. -/
def digitCount (x : BigDec) : Nat :=
  decDigits x.v.natAbs + (if x.v < 0 then 1 else 0)

/-- `posDigitCount` (lines 64-66): `digitCount() - dp`. -/
def posDigitCount (x : BigDec) : Int :=
  (digitCount x : Int) - x.dp

/-- The constructor tail (src/index.js lines 30-34): when `dp` exceeds
`FLOAT_PRECISION` the code does `BigInt(v.toString().slice(0, -diff))`.
Slicing the decimal string drops the `diff` low-order digits; for a
negative `v` whose magnitude has exactly `diff` digits the slice leaves
the bare string `"-"` and `BigInt` throws a `SyntaxError`; when the slice
leaves the empty string `BigInt("")` is `0`. -/
def truncDp (v : Int) (dp : Int) : Except JsError BigDec :=
  if dp > FLOAT_PRECISION then
    let diff := (dp - FLOAT_PRECISION).toNat
    if 0 ≤ v then
      .ok ⟨(v.toNat / 10 ^ diff : Nat), FLOAT_PRECISION⟩
    else
      let m := v.natAbs
      let d := decDigits m
      if diff < d then .ok ⟨-((m / 10 ^ diff : Nat) : Int), FLOAT_PRECISION⟩
      else if diff = d then .error .syntaxError
      else .ok ⟨0, FLOAT_PRECISION⟩
  else .ok ⟨v, dp⟩

/-- Bit length of a natural number, fuel-based for kernel evaluation;
fuel 1200 is exact for every `n < 2 ^ 1200`, and `jsNumber` only calls it
under that bound. -/
def bitLenAux : Nat → Nat → Nat
  | 0, _ => 0
  | f + 1, n => if n < 2 then (if n = 1 then 1 else 0) else bitLenAux f (n / 2) + 1

/-- Bit length (0 for 0). -/
def bitLen (n : Nat) : Nat := bitLenAux 1200 n

/-- Rounding-to-even helper for the halfway case of IEEE rounding. -/
def roundEven (q : Nat) : Nat := if q % 2 = 0 then q else q + 1

/-- `Number(digitString)` for a string of decimal digits with value `n`:
the IEEE-754 double nearest to `n` (round to nearest, ties to even, 53
significant bits); `none` is Infinity (so a later `BigInt` conversion
throws a `RangeError`).  Every rounded value is an integer because the
unit in the last place is at least 1. -/
def jsNumber (n : Nat) : Option Nat :=
  if n < 2 ^ 53 then some n
  else if 2 ^ 1100 ≤ n then none
  else
    let k := bitLen n - 53
    let q := n / 2 ^ k
    let r := n % 2 ^ k
    let rounded :=
      if r < 2 ^ (k - 1) then q * 2 ^ k
      else if 2 ^ (k - 1) < r then (q + 1) * 2 ^ k
      else roundEven q * 2 ^ k
    if rounded < 2 ^ 1024 then some rounded else none

/-- The regular expression `^-?\d*(\.\d*)?$` of src/index.js line 14. -/
def decFormat (cs : List Char) : Bool :=
  let cs := if cs.head? = some '-' then cs.tail else cs
  let rest := cs.dropWhile (·.isDigit)
  match rest with
  | [] => true
  | '.' :: frac => frac.all (·.isDigit)
  | _ => false

/-- Value of a list of decimal digit characters (the empty list is 0,
like `Number("")`). -/
def digitsToNat (cs : List Char) : Nat :=
  cs.foldl (fun a c => a * 10 + (c.toNat - 48)) 0

/-- The string path of the `BigDec` constructor (src/index.js lines
10-34): strip spaces, map `""`/`"0"` to the shared zero, strip a leading
`'+'`, test the grammar, read the sign, remove the decimal point, set
`dp = digits.length - decimalPoint`, and compute
`v = BigInt(sign * digitString)` — the digit string passes through a JS
double (`jsNumber`) before `BigInt` — then run the constructor tail. -/
def parse (s : String) : Except JsError BigDec :=
  let cs := s.data.filter (· != ' ')
  if cs = [] ∨ cs = ['0'] then .ok ⟨0, 0⟩
  else
    let cs := if cs.head? = some '+' then cs.tail else cs
    if decFormat cs then
      let sign : Int := if cs.head? = some '-' then -1 else 1
      let cs := if cs.head? = some '-' then cs.tail else cs
      let decimalPoint := cs.findIdx (· == '.')
      let digits := cs.filter (· != '.')
      let dp : Int := (digits.length : Int) - (decimalPoint : Int)
      match jsNumber (digitsToNat digits) with
      | none => .error .rangeError
      | some m => truncDp (sign * (m : Int)) dp
    else .error .invalidFormat

/-- Numeric value of a `BigDec`: `sign × magnitude × 10^(−scale)`,
i.e. `v / 10 ^ dp` as a rational. -/
def value (x : BigDec) : ℚ := (x.v : ℚ) / 10 ^ x.dp

/-- `sign()` (src/index.js lines 74-76): 1, 0 or -1 by the sign of `v`. -/
def signOf (x : BigDec) : Int :=
  if x.v > 0 then 1 else if x.v = 0 then 0 else -1

/-- `cmp` (src/index.js lines 82-96).  After the equality and sign tests
it compares `posDigitCount`, and on a tie it compares the raw `v` fields
directly — without aligning the two operands to a common scale. -/
def cmp (a b : BigDec) : Int :=
  if a.v = b.v ∧ a.dp = b.dp then 0
  else
    let sa := signOf a
    let sb := signOf b
    if sa ≠ sb then (if sa > sb then 1 else -1)
    else
      let da := posDigitCount a
      let db := posDigitCount b
      if da ≠ db then (if da > db then 1 else -1)
      else if a.v > b.v then 1 else -1

/-- `negate` (lines 56-58): `new BigDec({dp, v: -v})`. -/
def negate (x : BigDec) : Except JsError BigDec := truncDp (-x.v) x.dp

/-- `abs` (lines 110-112): `new BigDec({dp: this.dp, sign: 1, v: this.v})`.
The object literal carries an extra `sign: 1` property, but a `BigDec`
keeps its sign inside `v` and no method reads a `sign` data field, so the
constructed value has the same `v` (sign included) and the same `dp`. -/
def abs (x : BigDec) : Except JsError BigDec := truncDp x.v x.dp

/-- `shiftLeft` (lines 106-108): append `amount` zero digits to the
string of `v` (i.e. multiply by `10 ^ amount`) and raise `dp`. -/
def shiftLeft (x : BigDec) (amount : Nat) : Except JsError BigDec :=
  truncDp (x.v * 10 ^ amount) (x.dp + amount)

/-- `add` (lines 114-125): if the scales differ the smaller-scale operand
is shifted left by the difference, then the (possibly shifted) `v`s are
summed at the common scale. -/
def add (a b : BigDec) : Except JsError BigDec :=
  if a.dp = b.dp then truncDp (a.v + b.v) a.dp
  else if a.dp > b.dp then do
    let b' ← shiftLeft b (a.dp - b.dp).toNat
    truncDp (a.v + b'.v) a.dp
  else do
    let a' ← shiftLeft a (b.dp - a.dp).toNat
    truncDp (a'.v + b.v) a'.dp

/-- `sub` (lines 127-130): `this.add(dec.negate())`; an exception from
`negate`'s constructor call propagates. -/
def sub (a b : BigDec) : Except JsError BigDec :=
  match negate b with
  | .error e => .error e
  | .ok n => add a n

/-- `mul` (lines 132-135): multiply the `v`s, sum the scales. -/
def mul (a b : BigDec) : Except JsError BigDec :=
  truncDp (a.v * b.v) (a.dp + b.dp)

/-- `_simplifyPrecision` loop body (lines 40-46), fuel-based: the loop
runs while `dp > 0` and `v` is divisible by 10, so `dp.toNat` steps
suffice. -/
def simplifyAux : Nat → Int → Int → BigDec
  | 0, v, dp => ⟨v, dp⟩
  | f + 1, v, dp =>
    if dp > 0 ∧ v % 10 = 0 then simplifyAux f (v / 10) (dp - 1) else ⟨v, dp⟩

/-- `_simplifyPrecision` (lines 40-46). -/
def simplify (x : BigDec) : BigDec := simplifyAux x.dp.toNat x.v x.dp

/-- The regular expression `^-?10*$` of src/index.js line 140: the
magnitude is `1` followed by zeros, i.e. an exact power of ten. -/
def isPow10 (m : Nat) : Bool := m == 10 ^ (decDigits m - 1)

/-- The long-division loop of `inverse` (lines 150-155), fuel-based with
fuel `FLOAT_PRECISION = 20`.  `result += n / vUse` concatenates the
decimal string of the quotient chunk, so the accumulator keeps the
numeric value `acc` and the string length `len` of `result`. -/
def invLoop : Nat → Nat → Nat → Nat → Nat → Nat × Nat
  | 0, _, _, acc, len => (acc, len)
  | f + 1, n, vUse, acc, len =>
    let q := n / vUse
    let m := n % vUse
    let acc' := acc * 10 ^ decDigits q + q
    let len' := len + decDigits q
    if m = 0 then (acc', len') else invLoop f (m * 10) vUse acc' len'

/-- `inverse` (src/index.js lines 137-157).  Zero throws
`DivisionByZero`.  A power-of-ten magnitude takes the shift branch: with
`dp = vStr.length - 1 - this.dp`, a positive `dp` returns
`new BigDec({dp, v: 1n})` — with an unconditionally positive `v` — and
otherwise the signed `±10^(-dp)` at scale 0.  The general branch long
divides `10^count` by `|v|` (`count` is `v.toString().length`, which
counts the `"-"` of a negative `v`) and sets the result scale to
`count + result.length - 1 - this.dp`. -/
def inverse (x : BigDec) : Except JsError BigDec :=
  if x.v = 0 then .error .divisionByZero
  else
    let m := x.v.natAbs
    if isPow10 m then
      let dp : Int := (decDigits m : Int) - 1 - x.dp
      if dp > 0 then truncDp 1 dp
      else truncDp ((if x.v > 0 then 1 else -1) * 10 ^ (-dp).toNat) 0
    else
      let count := digitCount x
      let r := invLoop 20 (10 ^ count) m 0 0
      truncDp ((if x.v > 0 then 1 else -1) * (r.1 : Int))
        ((count : Int) + (r.2 : Int) - 1 - x.dp)

/-- `div` (lines 163-166): `this.mul(dec.inverse())._simplifyPrecision()`;
an exception from `inverse` or from `mul`'s constructor call propagates. -/
def div (a b : BigDec) : Except JsError BigDec :=
  match inverse b with
  | .error e => .error e
  | .ok i =>
    match mul a i with
    | .error e => .error e
    | .ok p => .ok (simplify p)

/-- `square` (lines 168-170): `this.mul(this)`. -/
def square (x : BigDec) : Except JsError BigDec := mul x x

/-- The Newton iteration of `sqrt` (lines 180-187), fuel-based with the
source's cap of 100000; reaching the cap returns the current iterate
(after a console warning). -/
def sqrtLoop : Nat → BigDec → BigDec → Except JsError BigDec
  | 0, _, x => .ok x
  | f + 1, t, x => do
    let a ← div t x
    let b ← add x a
    let c ← div b ⟨2, 0⟩
    let dx ← sub c x
    if dx.v = 0 then .ok x else sqrtLoop f t c

/-- `sqrt` (src/index.js lines 176-190).  A negative `v` throws; a `v`
equal to `0n` or `1n` — whatever the scale — returns the receiver
unchanged; otherwise Newton iteration seeded at `this.div(2)`. -/
def sqrt (x : BigDec) : Except JsError BigDec :=
  if x.v < 0 then .error .negativeSquareRoot
  else if x.v = 0 ∨ x.v = 1 then .ok x
  else do
    let x0 ← div x ⟨2, 0⟩
    sqrtLoop 100000 x x0

/-- Decimal digit characters of `m`, most significant first, fuel-based
(fuel `m` suffices: at most one digit is emitted per fuel step and the
recursion stops as soon as `m < 10`). -/
def natDigitsAux : Nat → Nat → List Char → List Char
  | 0, m, acc => Nat.digitChar (m % 10) :: acc
  | f + 1, m, acc =>
    if m < 10 then Nat.digitChar m :: acc
    else natDigitsAux f (m / 10) (Nat.digitChar (m % 10) :: acc)

/-- The decimal digit string of a natural number. -/
def natDigits (m : Nat) : List Char := natDigitsAux m m []

/-- `toString` (src/index.js lines 192-208): digits of `|v|`, left-pad
with zeros up to `dp`, insert the point when `dp > 0` and strip trailing
`'0'` characters (stopping at the first non-`'0'`, including `'.'`),
strip leading `'0'` characters, re-prepend `"0"` before a leading point,
and prefix `"-"` for negative `v`. -/
def toString (x : BigDec) : String :=
  if x.v = 0 then "0"
  else
    let s := natDigits x.v.natAbs
    let s := if (s.length : Int) < x.dp then
        List.replicate (x.dp - s.length).toNat '0' ++ s
      else s
    let s := if x.dp > 0 then
        let pnt := s.length - x.dp.toNat
        let s := s.take pnt ++ '.' :: s.drop pnt
        (s.reverse.dropWhile (· == '0')).reverse
      else s
    let s := s.dropWhile (· == '0')
    let s := if s.head? = some '.' then '0' :: s else s
    (if 0 ≤ x.v then "" else "-") ++ String.mk s

/-- The `BigNum` record (src/index.js lines 219-232): a pair of
`BigDec` components. -/
structure BigNum where
  re : BigDec
  im : BigDec
deriving DecidableEq, Repr

/-- A JS method of the first variant returns either a `BigDec` or a
`BigNum`; `BigNum.prototype.abs` returns one or the other depending on
the branch taken. -/
inductive JsValue where
  | dec (d : BigDec)
  | cplx (z : BigNum)
deriving DecidableEq, Repr

/-- `BigNum.prototype.abs` (src/index.js lines 283-287): a zero real
part returns the receiver itself; a zero imaginary part returns
`new BigNum(this.im)` — a complex number whose real component is the
(zero) imaginary part and whose imaginary component defaults to zero;
otherwise `sqrt(re² + im²)`, a `BigDec`. -/
def BigNum.abs (z : BigNum) : Except JsError JsValue :=
  if z.re.v = 0 then .ok (.cplx z)
  else if z.im.v = 0 then .ok (.cplx ⟨z.im, ⟨0, 0⟩⟩)
  else do
    let s1 ← square z.re
    let s2 ← square z.im
    let s ← add s1 s2
    let r ← sqrt s
    pure (.dec r)

/-! Helper lemmas shared by the claim theorems. -/

theorem truncDp_ok_of_le (v dp : Int) (h : dp ≤ FLOAT_PRECISION) :
    truncDp v dp = .ok ⟨v, dp⟩ := by
  unfold truncDp
  rw [if_neg (not_lt.mpr h)]

theorem value_shift (w d e : Int) (h : d ≤ e) :
    ((w * 10 ^ (e - d).toNat : Int) : ℚ) / 10 ^ e = (w : ℚ) / 10 ^ d := by
  have h10 : (10 : ℚ) ≠ 0 := by norm_num
  have hcast : ((10 : ℚ) ^ ((e - d).toNat) : ℚ) = (10 : ℚ) ^ (e - d) := by
    rw [← zpow_natCast, Int.toNat_of_nonneg (by omega)]
  push_cast
  rw [hcast, div_eq_div_iff (zpow_ne_zero _ h10) (zpow_ne_zero _ h10),
    mul_assoc, ← zpow_add₀ h10]
  norm_num

theorem value_mk_neg (v dp : Int) : value ⟨-v, dp⟩ = -value ⟨v, dp⟩ := by
  simp [value, neg_div]

theorem add_ok (x y : BigDec) (hx : x.dp ≤ FLOAT_PRECISION)
    (hy : y.dp ≤ FLOAT_PRECISION) :
    ∃ z, add x y = .ok z ∧ value z = value x + value y ∧
      z.dp = max x.dp y.dp := by
  rcases lt_trichotomy x.dp y.dp with h | h | h
  · set len := (y.dp - x.dp).toNat with hlendef
    have hlen : (len : Int) = y.dp - x.dp := Int.toNat_of_nonneg (by omega)
    refine ⟨⟨x.v * 10 ^ len + y.v, y.dp⟩, ?_, ?_, ?_⟩
    · have h1 : shiftLeft x len = .ok ⟨x.v * 10 ^ len, x.dp + len⟩ :=
        truncDp_ok_of_le _ _ (by omega)
      unfold add
      rw [if_neg (by omega), if_neg (by omega)]
      show (shiftLeft x len >>= fun a' => truncDp (a'.v + y.v) a'.dp) = _
      rw [h1]
      show truncDp (x.v * 10 ^ len + y.v) (x.dp + len) = _
      have hdp : x.dp + (len : Int) = y.dp := by omega
      rw [hdp, truncDp_ok_of_le _ _ hy]
    · show ((x.v * 10 ^ len + y.v : Int) : ℚ) / 10 ^ y.dp = _
      push_cast
      rw [add_div]
      have hs := value_shift x.v x.dp y.dp h.le
      push_cast at hs
      rw [hs]
      rfl
    · exact (max_eq_right h.le).symm
  · refine ⟨⟨x.v + y.v, x.dp⟩, ?_, ?_, ?_⟩
    · unfold add
      rw [if_pos h, truncDp_ok_of_le _ _ hx]
    · show ((x.v + y.v : Int) : ℚ) / 10 ^ x.dp = _
      push_cast
      rw [add_div]
      show _ = value x + value y
      unfold value
      rw [h]
    · rw [h, max_self]
  · set len := (x.dp - y.dp).toNat with hlendef
    have hlen : (len : Int) = x.dp - y.dp := Int.toNat_of_nonneg (by omega)
    refine ⟨⟨x.v + y.v * 10 ^ len, x.dp⟩, ?_, ?_, ?_⟩
    · have h1 : shiftLeft y len = .ok ⟨y.v * 10 ^ len, y.dp + len⟩ :=
        truncDp_ok_of_le _ _ (by omega)
      unfold add
      rw [if_neg (by omega), if_pos h]
      show (shiftLeft y len >>= fun b' => truncDp (x.v + b'.v) x.dp) = _
      rw [h1]
      show truncDp (x.v + y.v * 10 ^ len) x.dp = _
      rw [truncDp_ok_of_le _ _ hx]
    · show ((x.v + y.v * 10 ^ len : Int) : ℚ) / 10 ^ x.dp = _
      push_cast
      rw [add_div]
      have hs := value_shift y.v y.dp x.dp h.le
      push_cast at hs
      rw [hs]
      rfl
    · exact (max_eq_left h.le).symm

theorem truncDp_ne_dbz (v dp : Int) :
    truncDp v dp ≠ .error .divisionByZero := by
  unfold truncDp
  intro h
  split_ifs at h
  any_goals simp_all
  split_ifs at h
  all_goals simp_all

theorem inverse_dbz_iff (x : BigDec) :
    inverse x = .error .divisionByZero ↔ x.v = 0 := by
  constructor
  · intro h
    by_contra hv
    unfold inverse at h
    rw [if_neg hv] at h
    dsimp only at h
    split_ifs at h <;> exact truncDp_ne_dbz _ _ h
  · intro h
    unfold inverse
    rw [if_pos h]

theorem div_dbz_iff (y x : BigDec) :
    div y x = .error .divisionByZero ↔ x.v = 0 := by
  constructor
  · intro h
    by_contra hv
    rcases hinv : inverse x with e | i
    · simp only [div, hinv, Except.error.injEq] at h
      rw [h] at hinv
      exact hv ((inverse_dbz_iff x).mp hinv)
    · simp only [div, hinv] at h
      rcases hm : mul y i with e' | p
      · simp only [hm, Except.error.injEq] at h
        have hmt : truncDp (y.v * i.v) (y.dp + i.dp) = .error e' := hm
        rw [h] at hmt
        exact truncDp_ne_dbz _ _ hmt
      · simp only [hm] at h
        simp at h
  · intro h
    unfold div
    rw [(inverse_dbz_iff x).mpr h]

end Mathmate

namespace Mathmate

/-- Sanity check of the embedding against the source's own scenarios:
sqrt(4) = 2 via the Newton iteration, 1/4 = 0.25 via long division, and
the rendering of 0.25 and of 100 + 100000. -/
theorem sanity_concrete_scenarios :
    sqrt ⟨4, 0⟩ = .ok ⟨2, 0⟩ ∧ div ⟨1, 0⟩ ⟨4, 0⟩ = .ok ⟨25, 2⟩ ∧
    toString ⟨25, 2⟩ = "0.25" ∧ add ⟨100, 0⟩ ⟨100000, 0⟩ = .ok ⟨100100, 0⟩ ∧
    toString ⟨100100, 0⟩ = "100100" ∧ parse "abc" = .error .invalidFormat :=
  ⟨by decide, by decide, by decide, by decide, by decide, by decide⟩

/-- C1: parsing is claimed exact for unbounded magnitudes, e.g. for the
19-digit input "1234567890123456789".  The constructor instead computes
`BigInt(sign * digitString)`, coercing the digit string through a 64-bit
float, so the stored magnitude is the double-rounded
1234567890123456768, not the digit string's exact integer value. -/
theorem C1_parse_rounds_large_magnitude :
    parse "1234567890123456789" = .ok ⟨1234567890123456768, 0⟩ ∧
    (1234567890123456768 : Int) ≠ 1234567890123456789 :=
  ⟨by decide, by decide⟩

/-- C2: `cmp` is claimed to align both operands to a common scale before
comparing magnitudes when signs agree and integer-part digit counts tie,
so that cmp(0.5, 0.45) = 1 (greater).  The code compares the raw `v`
fields without alignment and returns -1 (less) although
value(0.5) > value(0.45). -/
theorem C2_cmp_misorders_unaligned_tie :
    parse "0.5" = .ok ⟨5, 1⟩ ∧ parse "0.45" = .ok ⟨45, 2⟩ ∧
    cmp ⟨5, 1⟩ ⟨45, 2⟩ = -1 ∧ value ⟨5, 1⟩ > value ⟨45, 2⟩ :=
  ⟨by decide, by decide, by decide, by norm_num [value]⟩

/-- C3: addition and subtraction are exact — for all Decimals `x`, `y`
(every constructed `BigDec` has `dp ≤ FLOAT_PRECISION`), `x.add(y)`
returns a Decimal of value exactly `value x + value y` and scale
`max x.dp y.dp`, and `x.sub(y) = x.add(y.negate())` likewise returns
exactly `value x − value y` at scale `max x.dp y.dp`. -/
theorem C3_add_sub_exact (x y : BigDec) (hx : x.dp ≤ FLOAT_PRECISION)
    (hy : y.dp ≤ FLOAT_PRECISION) :
    (∃ z, add x y = .ok z ∧ value z = value x + value y ∧
      z.dp = max x.dp y.dp) ∧
    (∃ z, sub x y = .ok z ∧ value z = value x - value y ∧
      z.dp = max x.dp y.dp) := by
  refine ⟨add_ok x y hx hy, ?_⟩
  have hneg : negate y = .ok ⟨-y.v, y.dp⟩ := truncDp_ok_of_le _ _ hy
  obtain ⟨z, hz, hv, hdp⟩ := add_ok x ⟨-y.v, y.dp⟩ hx hy
  refine ⟨z, ?_, ?_, hdp⟩
  · unfold sub
    rw [hneg]
    exact hz
  · rw [hv, value_mk_neg]
    show value x + -value y = _
    ring

/-- Witness for C3 at x = 0.1 and y = 0.2 (both of scale 1): the sum is
the Decimal 3 × 10^(−1), which renders as "0.3". -/
theorem C3_add_sub_exact_witness :
    ((⟨1, 1⟩ : BigDec).dp ≤ FLOAT_PRECISION ∧
      (⟨2, 1⟩ : BigDec).dp ≤ FLOAT_PRECISION) ∧
    ((∃ z, add ⟨1, 1⟩ ⟨2, 1⟩ = .ok z ∧
        value z = value ⟨1, 1⟩ + value ⟨2, 1⟩ ∧
        z.dp = max (⟨1, 1⟩ : BigDec).dp (⟨2, 1⟩ : BigDec).dp) ∧
      (∃ z, sub ⟨1, 1⟩ ⟨2, 1⟩ = .ok z ∧
        value z = value ⟨1, 1⟩ - value ⟨2, 1⟩ ∧
        z.dp = max (⟨1, 1⟩ : BigDec).dp (⟨2, 1⟩ : BigDec).dp)) ∧
    toString ⟨3, 1⟩ = "0.3" :=
  ⟨⟨by decide, by decide⟩,
    C3_add_sub_exact ⟨1, 1⟩ ⟨2, 1⟩ (by decide) (by decide),
    by decide⟩

/-- C4: `abs` is claimed to force the sign to +1, so that
parse("-5").abs() renders as "5".  The code builds
`new BigDec({dp, sign: 1, v})` with the `v` field unchanged — but a
`BigDec` keeps its sign inside `v` and never reads a `sign` data field —
so the result still holds −5 and renders as "-5". -/
theorem C4_abs_keeps_negative_value :
    parse "-5" = .ok ⟨-5, 0⟩ ∧ abs ⟨-5, 0⟩ = .ok ⟨-5, 0⟩ ∧
    toString ⟨-5, 0⟩ = "-5" ∧ value ⟨-5, 0⟩ < 0 :=
  ⟨by decide, by decide, by decide, by norm_num [value]⟩

/-- C5: the reciprocal is claimed to preserve the operand's sign,
including in the power-of-ten special case, e.g. 1/(−10) negative.  In
that branch, when the computed scale is positive, the code returns
`new BigDec({dp, v: 1n})` with an unconditionally positive `v`, so the
reciprocal of −10 is the positive 0.1. -/
theorem C5_inverse_pow10_drops_sign :
    parse "-10" = .ok ⟨-10, 0⟩ ∧ inverse ⟨-10, 0⟩ = .ok ⟨1, 1⟩ ∧
    value ⟨-10, 0⟩ < 0 ∧ value ⟨1, 1⟩ > 0 :=
  ⟨by decide, by decide, by norm_num [value], by norm_num [value]⟩

/-- C6: square root is claimed exact on perfect squares, including
0.01 = 0.1².  But `sqrt` returns the receiver whenever `v` is the BigInt
1 regardless of the scale, so sqrt(0.01) is 0.01 itself and its square
is 0.0001 ≠ 0.01. -/
theorem C6_sqrt_fixed_point_at_small_square :
    parse "0.01" = .ok ⟨1, 2⟩ ∧ sqrt ⟨1, 2⟩ = .ok ⟨1, 2⟩ ∧
    mul ⟨1, 2⟩ ⟨1, 2⟩ = .ok ⟨1, 4⟩ ∧ value ⟨1, 4⟩ ≠ value ⟨1, 2⟩ :=
  ⟨by decide, by decide, by decide, by norm_num [value]⟩

/-- C7: rendering is claimed to produce no trailing "." for any Decimal
reachable through parsing and arithmetic, e.g. parse("99.9") +
parse("0.1").  That sum is the Decimal 1000 × 10^(−1); `toString` strips
the trailing fractional zeros but never the decimal point itself, and
renders "100.". -/
theorem C7_toString_trailing_point :
    parse "99.9" = .ok ⟨999, 1⟩ ∧ parse "0.1" = .ok ⟨1, 1⟩ ∧
    add ⟨999, 1⟩ ⟨1, 1⟩ = .ok ⟨1000, 1⟩ ∧ toString ⟨1000, 1⟩ = "100." :=
  ⟨by decide, by decide, by decide, by decide⟩

/-- C8: the complex magnitude is claimed to be |re| when the imaginary
part is zero, so abs(−3 + 0i) should be 3.  The code's zero-imaginary
branch returns `new BigNum(this.im)` — the complex number whose real
component is the zero imaginary part — so abs(−3 + 0i) is the complex
zero, whose real component has value 0 ≠ 3. -/
theorem C8_complex_abs_zero_im :
    BigNum.abs ⟨⟨-3, 0⟩, ⟨0, 0⟩⟩ = .ok (.cplx ⟨⟨0, 0⟩, ⟨0, 0⟩⟩) ∧
    value ⟨0, 0⟩ ≠ 3 ∧ value ⟨-3, 0⟩ = -3 :=
  ⟨by decide, by norm_num [value], by norm_num [value]⟩

/-- C9 (counterexample): the claim also says every division with a
non-zero divisor returns normally.  With y = −10^(−20) (reachable by
parsing) and the non-zero divisor 3, `y.div(3)` multiplies y by the
20-digit reciprocal of 3 and the constructor's precision truncation
slices the negative product's string down to "-", so `BigInt("-")`
raises a SyntaxError instead of returning normally. -/
theorem C9_div_raises_for_nonzero_divisor :
    parse "-0.00000000000000000001" = .ok ⟨-1, 20⟩ ∧ parse "3" = .ok ⟨3, 0⟩ ∧
    (⟨3, 0⟩ : BigDec).v ≠ 0 ∧ div ⟨-1, 20⟩ ⟨3, 0⟩ = .error .syntaxError :=
  ⟨by decide, by decide, by decide, by decide⟩

/-- C9 (amended): `x.inverse()` and `y.div(x)` raise the DivisionByZero
error exactly when `x` is zero; for a non-zero `x` they never raise
DivisionByZero, but they may still raise a different error (a
SyntaxError from the constructor's precision truncation) instead of
returning normally. -/
theorem C9_division_by_zero_iff (x y : BigDec) :
    (inverse x = .error .divisionByZero ↔ x.v = 0) ∧
    (div y x = .error .divisionByZero ↔ x.v = 0) :=
  ⟨inverse_dbz_iff x, div_dbz_iff y x⟩

/-- C10: the negative input "-0.000000000000000000001" (all non-zero
digits more than 20 places after the point) makes the constructor's
precision truncation slice the string of `v = -1` down to "-", and
`BigInt("-")` raises a SyntaxError — none of the three specified error
kinds — while the corresponding positive string parses to zero. -/
theorem C10_deep_fraction_truncation_error :
    parse "-0.000000000000000000001" = .error .syntaxError ∧
    (JsError.syntaxError ≠ JsError.invalidFormat ∧
      JsError.syntaxError ≠ JsError.divisionByZero ∧
      JsError.syntaxError ≠ JsError.negativeSquareRoot) ∧
    parse "0.000000000000000000001" = .ok ⟨0, 20⟩ :=
  ⟨by decide, ⟨by decide, by decide, by decide⟩, by decide⟩

end Mathmate
